import Mathlib

/-!
Verification development for the Nova recommendation ETL pipeline
(`src/ml/etl/compute_similarity.py`, `src/ml/etl/similarity_sync.py`,
`src/ml/etl/training_data_pipeline.py`, `src/ml/run_pipeline.py`).

The SQL queries and pandas transformations are shallowly embedded as
executable Lean functions over explicit row lists.  External
nondeterminism (the engine's tie-break order inside `ORDER BY`, and the
`ORDER BY rand()` sampling order) is passed in as an explicit parameter,
matching the spec's remark that tie-breaks are engine-chosen.
-/

namespace Nova

/-! ## Generic list machinery: Bool-valued insertion sort and fixed-size pages -/

/-- Insert `x` into `l` before the first element `y` with `le x y`. -/
def insertLe (le : α → α → Bool) (x : α) : List α → List α
  | [] => [x]
  | y :: ys => if le x y then x :: y :: ys else y :: insertLe le x ys

/-- Insertion sort with a Bool comparator; models an SQL `ORDER BY`. -/
def sortLe (le : α → α → Bool) (l : List α) : List α :=
  l.foldr (insertLe le) []

/-- Auxiliary paging loop with explicit fuel (the fuel is the list length,
enough when the page size is positive). -/
def pagesGo (n : ℕ) : ℕ → List α → List (List α)
  | 0, _ => []
  | _ + 1, [] => []
  | fuel + 1, l@(_ :: _) => l.take n :: pagesGo n fuel (l.drop n)

/-- Split a list into consecutive pages of size `n`; models offset-based
`LIMIT n OFFSET k` pagination over a fixed row set. -/
def pages (n : ℕ) (l : List α) : List (List α) :=
  pagesGo n l.length l

/-! ## `compute_similarity.py`: `SimilarityComputer.compute_item_similarity`

The INSERT query is embedded as a function from the `watch_events` rows to
the list of `item_similarity` rows it inserts.  `event_date >= today() -
lookback_days` is modelled by a `days_ago` field on each event.  The
engine's `ORDER BY combined_score DESC` tie-break order inside
`row_number()` is unspecified, so the ranking comparator is an explicit
parameter `cmp`. -/

/-- One row of the `watch_events` table (the columns this query reads). -/
structure WatchEvent where
  user_id : ℕ
  content_id : ℕ
  days_ago : ℕ
  completion_rate : ℚ
deriving DecidableEq, Repr

/-- Parameters of `compute_item_similarity`. -/
structure SimilarityParams where
  lookback_days : ℕ
  min_user_interactions : ℕ
  min_co_interactions : ℕ
  min_jaccard : ℚ
  top_k_per_item : ℕ
deriving Repr

/-- The WHERE clause of the `item_users` CTE:
`event_date >= today() - lookback_days AND completion_rate >= 0.5`. -/
def eventQualifies (lookback : ℕ) (e : WatchEvent) : Bool :=
  decide (e.days_ago ≤ lookback) && decide ((1 : ℚ)/2 ≤ e.completion_rate)

/-- The `groupUniqArray(user_id)` aggregate for one item: the set of qualifying users. -/
def itemUserSet (events : List WatchEvent) (lookback : ℕ) (i : ℕ) : Finset ℕ :=
  ((events.filter (fun e => eventQualifies lookback e && e.content_id == i)).map
    (·.user_id)).toFinset

/-- The distinct items appearing in qualifying events (GROUP BY content_id). -/
def activeItems (events : List WatchEvent) (lookback : ℕ) : List ℕ :=
  ((events.filter (eventQualifies lookback)).map (·.content_id)).dedup

/-- The clause `HAVING user_count >= min_user_interactions`. -/
def eligibleItems (events : List WatchEvent) (p : SimilarityParams) : List ℕ :=
  (activeItems events p.lookback_days).filter
    (fun i => decide (p.min_user_interactions ≤ (itemUserSet events p.lookback_days i).card))

/-- The `item_pairs` CTE join: eligible pairs with `a.item_id < b.item_id`
and `length(arrayIntersect(a.users, b.users)) >= min_co_interactions`. -/
def itemPairs (events : List WatchEvent) (p : SimilarityParams) : List (ℕ × ℕ) :=
  ((eligibleItems events p).flatMap
    (fun a => ((eligibleItems events p).filter (fun b => a < b)).map (fun b => (a, b)))).filter
    (fun q => decide (p.min_co_interactions ≤
      (itemUserSet events p.lookback_days q.1 ∩ itemUserSet events p.lookback_days q.2).card))

/-- The numeric columns of one `scored_pairs` row.  The float columns
`jaccard`, `cosine` and `combined_score` are functions of these four
counts (see the theorems below), so the embedding carries the counts. -/
structure ScoredPair where
  item_a : ℕ
  item_b : ℕ
  inter_size : ℕ
  union_size : ℕ
  a_count : ℕ
  b_count : ℕ
deriving DecidableEq, Repr

/-- Build one `scored_pairs` row for an item pair from the user sets. -/
def mkScoredPair (events : List WatchEvent) (lookback : ℕ) (a b : ℕ) : ScoredPair :=
  { item_a := a
    item_b := b
    inter_size := (itemUserSet events lookback a ∩ itemUserSet events lookback b).card
    union_size := (itemUserSet events lookback a ∪ itemUserSet events lookback b).card
    a_count := (itemUserSet events lookback a).card
    b_count := (itemUserSet events lookback b).card }

/-- The `scored_pairs` CTE: score every surviving pair and apply
`WHERE intersection_size / union_size >= min_jaccard`. -/
def scoredPairs (events : List WatchEvent) (p : SimilarityParams) : List ScoredPair :=
  ((itemPairs events p).map
    (fun q => mkScoredPair events p.lookback_days q.1 q.2)).filter
    (fun sp => decide (p.min_jaccard ≤ (sp.inter_size : ℚ) / (sp.union_size : ℚ)))

/-- One inserted `item_similarity` row.  `similarity_score` and
`cosine_score` are the float expressions over the stored counts; the
rational `jaccard_score` column is carried exactly. -/
structure SimRow where
  item_id : ℕ
  similar_item_id : ℕ
  co_interaction_count : ℕ
  union_size : ℕ
  a_count : ℕ
  b_count : ℕ
  jaccard_score : ℚ
deriving DecidableEq, Repr

/-- Forward direction of the `ranked` UNION: `item_a AS item_id`. -/
def toRowFwd (sp : ScoredPair) : SimRow :=
  ⟨sp.item_a, sp.item_b, sp.inter_size, sp.union_size, sp.a_count, sp.b_count,
    (sp.inter_size : ℚ) / (sp.union_size : ℚ)⟩

/-- Reverse direction of the `ranked` UNION: `item_b AS item_id`. -/
def toRowRev (sp : ScoredPair) : SimRow :=
  ⟨sp.item_b, sp.item_a, sp.inter_size, sp.union_size, sp.b_count, sp.a_count,
    (sp.inter_size : ℚ) / (sp.union_size : ℚ)⟩

/-- One UNION branch of the `ranked` CTE together with `WHERE rn <= top_k`:
`row_number() OVER (PARTITION BY key ORDER BY combined_score DESC)` is
modelled by sorting each partition with `cmp` and keeping the first
`top_k` rows.  Each branch ranks within its own partition, exactly as the
two separate window functions in the query do. -/
def rankedBranch (key : ScoredPair → ℕ) (toRow : ScoredPair → SimRow)
    (cmp : ScoredPair → ScoredPair → Bool) (top_k : ℕ) (sps : List ScoredPair) : List SimRow :=
  ((sps.map key).dedup).flatMap
    (fun i => (((sps.filter (fun sp => key sp == i)).foldr (insertLe cmp) []).take top_k).map toRow)

/-- All rows inserted by one `compute_item_similarity` call. -/
def compute_item_similarity_rows (events : List WatchEvent) (p : SimilarityParams)
    (cmp : ScoredPair → ScoredPair → Bool) : List SimRow :=
  rankedBranch (·.item_a) toRowFwd cmp p.top_k_per_item (scoredPairs events p) ++
    rankedBranch (·.item_b) toRowRev cmp p.top_k_per_item (scoredPairs events p)

/-- Number of stored rows with a given `item_id` (outgoing similarity rows). -/
def outgoingRows (rows : List SimRow) (i : ℕ) : ℕ :=
  rows.countP (fun r => r.item_id == i)

/-! ## `similarity_sync.py`: `SimilaritySync.sync_item_similarity`

The sync reads the (FINAL-collapsed) `item_similarity` table, pages the
distinct item ids ordered by `item_id` with `LIMIT batch_size OFFSET k`,
and for each item deletes the `item:similar:{item_id}` cache key and
writes the top-`top_k` neighbors (by `similarity_score DESC`) as a fresh
score-keyed set with a TTL.  The cache is modelled as a map from the
`{item_id}` part of the key to the sorted-set value.  The read query's
`ORDER BY similarity_score DESC` leaves the order of tied scores to the
engine, and that tie order is not stable across executions; like the
compute path's `cmp`, the realized read order is therefore an explicit
parameter `rcmp`, constrained only to respect strict score
comparisons. -/

/-- One row of `item_similarity` as read back by the sync query (after
`FINAL` collapses versions). -/
structure SimEntry where
  item_id : ℕ
  similar_item_id : ℕ
  similarity_score : ℚ
deriving DecidableEq, Repr

/-- The constant `ITEM_SIMILAR_TTL = 86400 * 7` seconds. -/
def ITEM_SIMILAR_TTL : ℕ := 86400 * 7

/-- Redis sorted-set value under one `item:similar:{id}` key: the
member-to-score mapping plus the TTL set by `EXPIRE`. -/
abbrev CacheEntry := List (ℕ × ℚ) × ℕ

/-- The cache: each item id (the `{id}` in `item:similar:{id}`) maps to
its entry, or `none` when the key is absent. -/
abbrev Cache := ℕ → Option CacheEntry

/-- One possible realized read order for `ORDER BY similarity_score
DESC`: ties broken by ascending `similar_item_id`. -/
def simReadLe (x y : SimEntry) : Bool :=
  decide (y.similarity_score < x.similarity_score) ||
    (decide (x.similarity_score = y.similarity_score) &&
      decide (x.similar_item_id ≤ y.similar_item_id))

/-- Another possible realized read order for the same `ORDER BY`: ties
broken by descending `similar_item_id`.  Both are legitimate engine
outcomes for tied scores. -/
def simReadLeDesc (x y : SimEntry) : Bool :=
  decide (y.similarity_score < x.similarity_score) ||
    (decide (x.similarity_score = y.similarity_score) &&
      decide (y.similar_item_id ≤ x.similar_item_id))

/-- What `ORDER BY similarity_score DESC` guarantees of a realized read
order `rcmp`: a strictly higher-scored row sorts before a lower-scored
one, and never the other way around; the order of tied rows is
engine-chosen. -/
def RespectsScoreDesc (rcmp : SimEntry → SimEntry → Bool) : Prop :=
  ∀ x y : SimEntry,
    (y.similarity_score < x.similarity_score → rcmp x y = true) ∧
    (x.similarity_score < y.similarity_score → rcmp x y = false)

/-- The rows the sync query returns for one item: its similarity rows
ranked by the realized read order `rcmp` (score descending, engine
tie-break), cut at `rn <= top_k`, projected to
`(similar_item_id, similarity_score)` by the two `groupArray` calls. -/
def topNeighbors (tbl : List SimEntry) (top_k : ℕ)
    (rcmp : SimEntry → SimEntry → Bool) (i : ℕ) : List (ℕ × ℚ) :=
  ((sortLe rcmp (tbl.filter (fun r => r.item_id == i))).take top_k).map
    (fun r => (r.similar_item_id, r.similarity_score))

/-- Insert one key-value pair into a Python dict: first occurrence keeps
its position, the value of the last occurrence wins. -/
def pyDictInsert (m : List (ℕ × ℚ)) (kv : ℕ × ℚ) : List (ℕ × ℚ) :=
  if m.any (fun e => e.1 == kv.1) then
    m.map (fun e => if e.1 == kv.1 then (e.1, kv.2) else e)
  else m ++ [kv]

/-- The `score_mapping` dict comprehension. -/
def pyDict (l : List (ℕ × ℚ)) : List (ℕ × ℚ) :=
  l.foldl pyDictInsert []

/-- The item ids the paged sync query yields: distinct `item_id`s ordered
ascending, restricted to items still having a row with `rn <= top_k`
(a GROUP BY group only exists when at least one row survives). -/
def syncedItems (tbl : List SimEntry) (top_k : ℕ)
    (rcmp : SimEntry → SimEntry → Bool) : List ℕ :=
  sortLe (fun a b => decide (a ≤ b))
    (((tbl.map (·.item_id)).dedup).filter
      (fun i => !(topNeighbors tbl top_k rcmp i).isEmpty))

/-- The value under key `item:similar:{i}` after the item is processed:
`pipe.delete(key)` always runs, then `pipe.zadd`/`pipe.expire` run iff the
neighbor arrays are non-empty. -/
def itemEntry (tbl : List SimEntry) (top_k : ℕ)
    (rcmp : SimEntry → SimEntry → Bool) (i : ℕ) : Option CacheEntry :=
  let ns := pyDict (topNeighbors tbl top_k rcmp i)
  if ns.isEmpty then none else some (ns, ITEM_SIMILAR_TTL)

/-- Processing of one result row inside the Redis pipeline. -/
def processItem (tbl : List SimEntry) (top_k : ℕ)
    (rcmp : SimEntry → SimEntry → Bool) (c : Cache) (i : ℕ) : Cache :=
  fun j => if j = i then itemEntry tbl top_k rcmp i else c j

/-- The sync `sync_item_similarity(batch_size, top_k)`: page the item ids
and process each page in one batched Redis round-trip, under the realized
read order `rcmp` the engine returns for this run. -/
def sync_item_similarity (tbl : List SimEntry) (batch_size top_k : ℕ)
    (rcmp : SimEntry → SimEntry → Bool) (c : Cache) : Cache :=
  (pages batch_size (syncedItems tbl top_k rcmp)).foldl
    (fun acc page => page.foldl (processItem tbl top_k rcmp) acc) c

/-! ## `training_data_pipeline.py`: `TrainingDataPipeline`

`build_training_dataset` is embedded as a function of the
`training_interactions` rows, the date range, the negative ratio, the two
engine-chosen row orders, and the `training_features` lookup.  Neither
extraction query determines its output order: the positive-sample SELECT
has no ORDER BY at all (`posDraw` is the engine-returned arrangement of
the eligible positive rows), and the negative-sample SELECT orders by an
unseeded `rand()` before its LIMIT (`negDraw` is that random
arrangement).  Both are explicit inputs because neither is a function of
the table contents.  Failure of the pandas bucket cast is an
`Except.error`. -/

/-- One `training_interactions` row (the columns the pipeline logic
reads; the remaining SELECT columns are pass-through payload). -/
structure TrainingRow where
  user_id : ℕ
  post_id : ℕ
  label : ℕ
  position_in_feed : ℕ
  completion_rate : ℚ
  hour_of_day : ℕ
  day_of_week : ℕ
  recall_source : String
  event_date : ℕ
deriving DecidableEq, Repr

/-- The filter `event_date >= start_date AND event_date <= end_date` (dates as day
numbers). -/
def inDateRange (s e : ℕ) (r : TrainingRow) : Bool :=
  decide (s ≤ r.event_date) && decide (r.event_date ≤ e)

/-- The rows the method `extract_positive_samples` returns: all rows with
`label = 1` in range.  The SELECT has no ORDER BY, so the order in which
the engine returns these rows is not determined by the table contents;
the pipeline below therefore receives the returned arrangement as an
explicit `posDraw` input, a permutation of this filter.  The row count of
this filter is also what the positive-count query reports. -/
def extract_positive_samples (tbl : List TrainingRow) (s e : ℕ) : List TrainingRow :=
  tbl.filter (fun r => inDateRange s e r && (r.label == 1))

/-- The negative rows eligible in range (`label = 0`). -/
def eligibleNegatives (tbl : List TrainingRow) (s e : ℕ) : List TrainingRow :=
  tbl.filter (fun r => inDateRange s e r && (r.label == 0))

/-- Python `int()` on a rational: truncation toward zero. -/
def pyInt (q : ℚ) : ℤ :=
  if 0 ≤ q then ⌊q⌋ else ⌈q⌉

/-- The method `extract_negative_samples`: count the positives, set
`negative_limit = int(positive_count * negative_ratio)`, and take that
many rows from the engine's random arrangement `draw` of the eligible
negatives (`ORDER BY rand() LIMIT negative_limit`).  Returns the sampled
rows together with the limit passed to the query. -/
def extract_negative_samples (tbl : List TrainingRow) (s e : ℕ) (ratio : ℚ)
    (draw : List TrainingRow) : List TrainingRow × ℤ :=
  let positive_count := (extract_positive_samples tbl s e).length
  let negative_limit : ℤ := pyInt ((positive_count : ℚ) * ratio)
  (draw.take negative_limit.toNat, negative_limit)

/-- The `training_features` lookup: at most one feature vector per
`(user_id, post_id)` (the fetch query ends in `LIMIT 1 BY user_id,
post_id`). -/
abbrev FeatureMap := ℕ × ℕ → Option (List ℚ)

/-- A sample row after the left feature merge: the features stay `none`
when no feature row matches. -/
structure JoinedRow where
  base : TrainingRow
  features : Option (List ℚ)
deriving DecidableEq, Repr

/-- The method `join_features`: left merge on `(user_id, post_id)`; row-count
preserving because the feature side is unique per key. -/
def join_features (feats : FeatureMap) (samples : List TrainingRow) : List JoinedRow :=
  samples.map (fun r => ⟨r, feats (r.user_id, r.post_id)⟩)

/-- The call `pd.cut` with right-closed, left-open finite bins: the label index of
the interval `(bins[i], bins[i+1]]` containing `x`, `none` (NaN) when `x`
falls outside every bin — in particular when `x` equals the lowest
edge. -/
def cutBins : List ℚ → ℚ → Option ℕ
  | lo :: hi :: rest, x =>
    if lo < x ∧ x ≤ hi then some 0 else (cutBins (hi :: rest) x).map (· + 1)
  | _, _ => none

/-- The column `position_bucket`: bins `[0, 3, 10, 30, 100, inf]`, labels 0-4. -/
def positionBucket (p : ℕ) : Option ℕ :=
  if (100 : ℚ) < (p : ℚ) then some 4 else cutBins [0, 3, 10, 30, 100] (p : ℚ)

/-- The column `completion_bucket`: bins `[0, 0.25, 0.5, 0.75, 0.9, 1.0]`, labels 0-4. -/
def completionBucket (c : ℚ) : Option ℕ :=
  cutBins [0, 1/4, 1/2, 3/4, 9/10, 1] c

/-- The `recall_source_map` lookup with `.fillna(0)`. -/
def recallSourceEncoded (src : String) : ℕ :=
  if src = "" then 0
  else if src = "graph" then 1
  else if src = "trending" then 2
  else if src = "personalized" then 3
  else if src = "item_cf" then 4
  else if src = "user_cf" then 5
  else 0

/-- The cast `.astype(int)` on a boolean column. -/
def boolNat (b : Bool) : ℕ := if b then 1 else 0

/-- The derived feature columns of `compute_derived_features`. -/
structure DerivedCols where
  is_weekend : ℕ
  is_morning : ℕ
  is_evening : ℕ
  is_night : ℕ
  position_bucket : ℕ
  completion_bucket : ℕ
  recall_source_encoded : ℕ
deriving DecidableEq, Repr

/-- Derived columns for one row; the `.astype(int)` cast of a bucket
column raises when the bucket is NaN. -/
def deriveRow (j : JoinedRow) : Except String DerivedCols :=
  match positionBucket j.base.position_in_feed, completionBucket j.base.completion_rate with
  | some pb, some cb =>
    .ok { is_weekend := boolNat (j.base.day_of_week == 6 || j.base.day_of_week == 7)
          is_morning := boolNat (decide (6 ≤ j.base.hour_of_day) && decide (j.base.hour_of_day ≤ 11))
          is_evening := boolNat (decide (18 ≤ j.base.hour_of_day) && decide (j.base.hour_of_day ≤ 23))
          is_night := boolNat (decide (j.base.hour_of_day ≤ 5))
          position_bucket := pb
          completion_bucket := cb
          recall_source_encoded := recallSourceEncoded j.base.recall_source }
  | _, _ => .error "cannot convert non-finite values (NA or inf) to integer"

/-- A fully assembled dataset row. -/
structure DatasetRow where
  row : JoinedRow
  derived : DerivedCols
deriving DecidableEq, Repr

/-- The method `compute_derived_features`: succeeds only when every row buckets. -/
def compute_derived_features (rows : List JoinedRow) : Except String (List DatasetRow) :=
  rows.mapM (fun j => (deriveRow j).map (fun d => ⟨j, d⟩))

/-- The index key of the fixed-seed shuffle: `df.sample(frac=1,
random_state=42)` applies a pseudorandom but fully deterministic
permutation of the row indices; it is modelled by this concrete
multiplicative-hash key. -/
def shuffleKey (i : ℕ) : ℕ := (i * 2654435761 + 42) % 4294967296

/-- Comparator ordering row indices by their shuffle key. -/
def shuffleLe (a b : ℕ × α) : Bool :=
  decide (shuffleKey a.1 < shuffleKey b.1) ||
    (decide (shuffleKey a.1 = shuffleKey b.1) && decide (a.1 ≤ b.1))

/-- The seeded shuffle: a deterministic permutation of the frame. -/
def shuffle42 (l : List α) : List α :=
  (sortLe shuffleLe l.enum).map Prod.snd

/-- What one `build_training_dataset` call produced: the dataset rows,
the `LIMIT` value passed to the negative-sample query (`none` would mean
that query was never issued), and whether the empty-dataset warning was
logged. -/
structure BuildResult where
  rows : List DatasetRow
  neg_query_limit : Option ℤ
  warned_empty : Bool
deriving DecidableEq, Repr

/-- The method `build_training_dataset(start_date, end_date, negative_ratio)`:
extract positives (`posDraw`, the engine-returned arrangement of the
eligible positive rows — the SELECT has no ORDER BY), extract the
down-sampled negatives (a prefix of `negDraw`, the engine's `rand()`
arrangement of the eligible negative rows), concatenate; on an empty
concatenation log a warning and return the empty frame; otherwise join
features, compute derived features (which can raise) and shuffle with the
fixed seed. -/
def build_training_dataset (tbl : List TrainingRow) (s e : ℕ) (ratio : ℚ)
    (posDraw negDraw : List TrainingRow) (feats : FeatureMap) : Except String BuildResult :=
  if (posDraw ++ (extract_negative_samples tbl s e ratio negDraw).1).isEmpty then
    .ok ⟨[], some (extract_negative_samples tbl s e ratio negDraw).2, true⟩
  else
    match compute_derived_features (join_features feats (posDraw ++
        (extract_negative_samples tbl s e ratio negDraw).1)) with
    | .ok derived =>
      .ok ⟨shuffle42 derived, some (extract_negative_samples tbl s e ratio negDraw).2, false⟩
    | .error m => .error m

/-- Number of dataset rows carrying a given label. -/
def labelCount (rows : List DatasetRow) (lab : ℕ) : ℕ :=
  rows.countP (fun d => d.row.base.label == lab)

/-! ## `compute_similarity.py` failure semantics (try/except structure)

Each compute method wraps its main command and the follow-up statistics
query in a single `try`, returning `{"error": message}` from the
`except`; the preliminary best-effort DELETE has its own `try` whose
failure only logs a warning.  The behaviour of the ClickHouse client is
abstracted as the outcome of each issued query. -/

/-- Outcomes of the three statements a similarity compute method issues. -/
structure QueryOutcomes where
  clear_result : Except String Unit
  compute_result : Except String Unit
  stats_result : Except String (List (String × ℚ))
deriving Repr

/-- The statistics dict a compute method returns: either the stats rows
or an `{"error": message}` dict. -/
inductive JobStats where
  | stats (rows : List (String × ℚ))
  | errorDict (msg : String)
deriving DecidableEq, Repr

/-- The method `compute_item_similarity` as a function of the query outcomes.  The
result is in `Except` so that "raises" is representable; the method
itself always returns (`Except.ok`).  `clear_result` never influences the
result (its failure only logs a warning). -/
def compute_item_similarity_stats (o : QueryOutcomes) : Except String JobStats :=
  match (do o.compute_result; o.stats_result : Except String (List (String × ℚ))) with
  | .ok s => .ok (.stats s)
  | .error e => .ok (.errorDict e)

/-- The method `compute_user_similarity` has the same clear/compute/stats shape. -/
def compute_user_similarity_stats (o : QueryOutcomes) : Except String JobStats :=
  match (do o.compute_result; o.stats_result : Except String (List (String × ℚ))) with
  | .ok s => .ok (.stats s)
  | .error e => .ok (.errorDict e)

/-- Outcomes of the two statements `update_user_recent_items` issues. -/
structure RecentOutcomes where
  insert_result : Except String Unit
  stats_result : Except String (List (String × ℚ))
deriving Repr

/-- The method `update_user_recent_items` wraps its INSERT and stats query in one
`try`. -/
def update_user_recent_items_stats (o : RecentOutcomes) : Except String JobStats :=
  match (do o.insert_result; o.stats_result : Except String (List (String × ℚ))) with
  | .ok s => .ok (.stats s)
  | .error e => .ok (.errorDict e)

/-! ## `run_pipeline.py`: the orchestrator `main()`

`main()` runs the selected stages inside one `try`; the `except` logs the
stack trace and returns 1, which `sys.exit` turns into the process exit
status.  Stage behaviour is abstracted as an outcome per stage. -/

/-- The four pipeline stages, in execution order. -/
inductive Stage where
  | similarity
  | sync
  | extract
  | train
deriving DecidableEq, Repr

/-- The step-selection CLI flags. -/
structure PipelineFlags where
  all : Bool
  similarity : Bool
  sync : Bool
  extract : Bool
  train : Bool
deriving Repr

/-- Default to `--all` if no step flag is specified. -/
def effectiveFlags (f : PipelineFlags) : PipelineFlags :=
  if !(f.all || f.similarity || f.sync || f.extract || f.train) then
    { f with all := true }
  else f

/-- Whether a stage runs under the (already defaulted) flags. -/
def stageSelected (f : PipelineFlags) : Stage → Bool
  | .similarity => f.all || f.similarity
  | .sync => f.all || f.sync
  | .extract => f.all || f.extract
  | .train => f.all || f.train

/-- The stages `main()` will attempt, in order. -/
def selectedStages (f : PipelineFlags) : List Stage :=
  [Stage.similarity, Stage.sync, Stage.extract, Stage.train].filter
    (stageSelected (effectiveFlags f))

/-- Sequence stages inside the single `try`: the first raising stage
aborts the run with exit status 1; otherwise exit status 0.  The second
component is the list of stages that were started. -/
def runStages : List Stage → (Stage → Except String Unit) → ℕ × List Stage
  | [], _ => (0, [])
  | s :: rest, o =>
    match o s with
    | .ok _ => let r := runStages rest o; (r.1, s :: r.2)
    | .error _ => (1, [s])

/-- The entry point `main()` followed by `sys.exit(main())`: exit status and started
stages. -/
def pipeline_main (f : PipelineFlags) (o : Stage → Except String Unit) : ℕ × List Stage :=
  runStages (selectedStages f) o

/-- Whether an outcome is a raise. -/
def isErr : Except String Unit → Bool
  | .ok _ => false
  | .error _ => true

/-! ## Concrete inputs used by witnesses and counterexamples -/

/-- The spec's concrete scenario: item 1 watched (completion 1) by users
1-10, item 2 by users 5-14, all within the lookback window. -/
def eventsScenario : List WatchEvent :=
  ((List.range 10).map (fun u => ⟨u + 1, 1, 0, 1⟩)) ++
    ((List.range 10).map (fun u => ⟨u + 5, 2, 0, 1⟩))

/-- The scenario parameters: `min_co_interactions=5`, `min_jaccard=0.05`,
defaults elsewhere. -/
def paramsScenario : SimilarityParams := ⟨30, 10, 5, 1/20, 100⟩

/-- A concrete engine ranking order (ties in `combined_score` may be
broken arbitrarily; this one breaks them by the partner item id). -/
def cmpDefault (x y : ScoredPair) : Bool :=
  decide (x.item_b ≤ y.item_b)

/-- The `item_similarity` row the scenario inserts for direction 1→2. -/
def rowScenario : SimRow := ⟨1, 2, 6, 14, 10, 10, 6/14⟩

/-- What C1 asserts of one stored `item_similarity` row: the stored
counts are exactly the set quantities of the two items' qualifying user
sets, the stored `jaccard_score` is `|inter| / |union|`, and consequently
the stored `similarity_score` float expression
`0.6*(inter/union) + 0.4*(inter/sqrt(a_count*b_count))` over the row's
columns equals `0.6*jaccard + 0.4*cosine` of the user sets themselves. -/
def scoreFormulaProp (events : List WatchEvent) (lookback : ℕ) (row : SimRow) : Prop :=
  row.co_interaction_count =
    (itemUserSet events lookback row.item_id ∩
      itemUserSet events lookback row.similar_item_id).card ∧
  row.union_size =
    (itemUserSet events lookback row.item_id ∪
      itemUserSet events lookback row.similar_item_id).card ∧
  row.a_count = (itemUserSet events lookback row.item_id).card ∧
  row.b_count = (itemUserSet events lookback row.similar_item_id).card ∧
  row.jaccard_score =
    ((itemUserSet events lookback row.item_id ∩
      itemUserSet events lookback row.similar_item_id).card : ℚ) /
    ((itemUserSet events lookback row.item_id ∪
      itemUserSet events lookback row.similar_item_id).card : ℚ) ∧
  (0.6 : ℝ) * ((row.co_interaction_count : ℝ) / (row.union_size : ℝ)) +
      (0.4 : ℝ) * ((row.co_interaction_count : ℝ) /
        Real.sqrt ((row.a_count : ℝ) * (row.b_count : ℝ))) =
    (0.6 : ℝ) * (((itemUserSet events lookback row.item_id ∩
        itemUserSet events lookback row.similar_item_id).card : ℝ) /
      ((itemUserSet events lookback row.item_id ∪
        itemUserSet events lookback row.similar_item_id).card : ℝ)) +
      (0.4 : ℝ) * (((itemUserSet events lookback row.item_id ∩
          itemUserSet events lookback row.similar_item_id).card : ℝ) /
        Real.sqrt (((itemUserSet events lookback row.item_id).card : ℝ) *
          ((itemUserSet events lookback row.similar_item_id).card : ℝ)))

/-- Failing input for the per-item cap: items 1, 2, 3 all watched by
users 1 and 2 (every pair ties with jaccard 1). -/
def eventsCap : List WatchEvent :=
  [⟨1, 1, 0, 1⟩, ⟨2, 1, 0, 1⟩, ⟨1, 2, 0, 1⟩, ⟨2, 2, 0, 1⟩, ⟨1, 3, 0, 1⟩, ⟨2, 3, 0, 1⟩]

/-- Parameters with `top_k_per_item = 1` for the cap failing input. -/
def paramsCap : SimilarityParams := ⟨30, 2, 2, 1/20, 1⟩

/-- The `scored_pairs` row for items (1,2) of the cap failing input. -/
def spCap12 : ScoredPair := ⟨1, 2, 2, 2, 2, 2⟩

/-- The `scored_pairs` row for items (1,3) of the cap failing input. -/
def spCap13 : ScoredPair := ⟨1, 3, 2, 2, 2, 2⟩

/-- The `scored_pairs` row for items (2,3) of the cap failing input. -/
def spCap23 : ScoredPair := ⟨2, 3, 2, 2, 2, 2⟩

/-- Sync table: item 1 has neighbors scored [0.9, 0.7, 0.5, 0.3]; item 2
has one unrelated neighbor. -/
def tblSync : List SimEntry :=
  [⟨1, 11, 9/10⟩, ⟨1, 12, 7/10⟩, ⟨1, 13, 1/2⟩, ⟨1, 14, 3/10⟩, ⟨2, 21, 19/20⟩]

/-- A prior cache state with stale members under the item-1 key. -/
def cachePrior : Cache :=
  fun j => if j = 1 then some ([(99, 1/8)], 42) else none

/-- An empty cache. -/
def cacheEmpty : Cache := fun _ => none

/-- Sync table where item 1 has two distinct neighbors tied at score
0.5: the read order of the tie is up to the engine. -/
def tblTie : List SimEntry := [⟨1, 11, 1/2⟩, ⟨1, 12, 1/2⟩]

/-- A positive training row with bucketable columns. -/
def posRow : TrainingRow := ⟨10, 100, 1, 1, 4/5, 10, 3, "graph", 5⟩

/-- An eligible negative row (bucketable). -/
def negRowA : TrainingRow := ⟨11, 101, 0, 2, 1/10, 20, 6, "trending", 5⟩

/-- A second eligible negative row (bucketable). -/
def negRowB : TrainingRow := ⟨12, 102, 0, 3, 1/5, 23, 7, "", 5⟩

/-- A never-watched negative impression: `completion_rate = 0`. -/
def negRowZero : TrainingRow := ⟨13, 103, 0, 4, 0, 12, 2, "", 5⟩

/-- Table with one positive and two negatives in range. -/
def tblTrain : List TrainingRow := [posRow, negRowA, negRowB]

/-- Table with no positive rows in any range. -/
def tblNoPos : List TrainingRow := [negRowA, negRowB]

/-- Table whose eligible rows include a zero-completion impression. -/
def tblZero : List TrainingRow := [posRow, negRowZero]

/-- Empty feature snapshot table. -/
def noFeatures : FeatureMap := fun _ => none

/-- Derived columns of `posRow` (hour 10, weekday 3, position 1,
completion 4/5, source graph). -/
def dcPos : DerivedCols :=
  { is_weekend := 0
    is_morning := 1
    is_evening := 0
    is_night := 0
    position_bucket := 0
    completion_bucket := 3
    recall_source_encoded := 1 }

/-- Derived columns of `negRowA` (hour 20, day 6, position 2,
completion 1/10, source trending). -/
def dcNegA : DerivedCols :=
  { is_weekend := 1
    is_morning := 0
    is_evening := 1
    is_night := 0
    position_bucket := 0
    completion_bucket := 0
    recall_source_encoded := 2 }

/-- Derived columns of `negRowB` (hour 23, day 7, position 3,
completion 1/5, empty source). -/
def dcNegB : DerivedCols :=
  { is_weekend := 1
    is_morning := 0
    is_evening := 1
    is_night := 0
    position_bucket := 0
    completion_bucket := 0
    recall_source_encoded := 0 }

/-- The row `posRow` as a finished dataset row (no feature match). -/
def dsPos : DatasetRow := { row := { base := posRow, features := none }, derived := dcPos }

/-- The row `negRowA` as a finished dataset row. -/
def dsNegA : DatasetRow := { row := { base := negRowA, features := none }, derived := dcNegA }

/-- The row `negRowB` as a finished dataset row. -/
def dsNegB : DatasetRow := { row := { base := negRowB, features := none }, derived := dcNegB }

/-- The build result for `tblTrain` with ratio 3/2, positive arrangement
`[posRow]` and negative arrangement `[negRowA, negRowB]`. -/
def resRatio : BuildResult := { rows := [dsPos, dsNegA], neg_query_limit := some 1, warned_empty := false }

/-- A second positive training row (bucketable), used to vary the
engine's positive-row order. -/
def posRow2 : TrainingRow := ⟨14, 104, 1, 5, 9/10, 8, 4, "personalized", 5⟩

/-- Derived columns of `posRow2` (hour 8, weekday 4, position 5,
completion 9/10, source personalized). -/
def dcPos2 : DerivedCols :=
  { is_weekend := 0
    is_morning := 1
    is_evening := 0
    is_night := 0
    position_bucket := 1
    completion_bucket := 3
    recall_source_encoded := 3 }

/-- The row `posRow2` as a finished dataset row. -/
def dsPos2 : DatasetRow := { row := { base := posRow2, features := none }, derived := dcPos2 }

/-- Table with two positives and two negatives in range. -/
def tblTrain2 : List TrainingRow := [posRow, posRow2, negRowA, negRowB]

/-- Build result for `tblTrain2`, ratio 1, positive arrangement
`[posRow, posRow2]`, negative arrangement `[negRowA, negRowB]`. -/
def resPerm1 : BuildResult :=
  { rows := [dsPos, dsNegA, dsPos2, dsNegB], neg_query_limit := some 2, warned_empty := false }

/-- Build result for `tblTrain2` with the positives arranged the other
way round (`[posRow2, posRow]`), same negative arrangement. -/
def resPerm2 : BuildResult :=
  { rows := [dsPos2, dsNegA, dsPos, dsNegB], neg_query_limit := some 2, warned_empty := false }

/-- Query outcomes where the main compute INSERT raises. -/
def outcomesComputeFail : QueryOutcomes :=
  { clear_result := .ok (), compute_result := .error "boom", stats_result := .ok [] }

/-- Query outcomes where only the follow-up stats query raises (the
best-effort clear also fails, which must not matter). -/
def outcomesStatsFail : QueryOutcomes :=
  { clear_result := .error "warn", compute_result := .ok (), stats_result := .error "stats boom" }

/-- Recent-items outcomes where the stats query raises. -/
def outcomesRecentFail : RecentOutcomes :=
  { insert_result := .ok (), stats_result := .error "stats boom" }

/-- No step flag passed on the command line (defaults to `--all`). -/
def flagsNone : PipelineFlags :=
  { all := false, similarity := false, sync := false, extract := false, train := false }

/-- Stage behaviour where the Redis sync stage raises. -/
def stageOutcomesSyncFail : Stage → Except String Unit :=
  fun s => if s = Stage.sync then .error "db down" else .ok ()

/-! ## Theorems -/

theorem mem_insertLe (le : α → α → Bool) (x a : α) (l : List α) :
    a ∈ insertLe le x l ↔ a = x ∨ a ∈ l := by
  induction l with
  | nil => simp [insertLe]
  | cons y ys ih =>
    simp only [insertLe]
    split
    · simp
    · simp only [List.mem_cons, ih]
      tauto

theorem mem_sortLe (le : α → α → Bool) (a : α) (l : List α) :
    a ∈ sortLe le l ↔ a ∈ l := by
  induction l with
  | nil => simp [sortLe]
  | cons y ys ih =>
    simp only [sortLe, List.foldr] at *
    rw [mem_insertLe, ih]
    simp [eq_comm]

theorem insertLe_perm (le : α → α → Bool) (x : α) (l : List α) :
    List.Perm (insertLe le x l) (x :: l) := by
  induction l with
  | nil => simp [insertLe]
  | cons y ys ih =>
    simp only [insertLe]
    split
    · exact List.Perm.refl _
    · exact (List.Perm.cons y ih).trans (List.Perm.swap x y ys)

theorem sortLe_perm (le : α → α → Bool) (l : List α) :
    List.Perm (sortLe le l) l := by
  induction l with
  | nil => simp [sortLe]
  | cons y ys ih =>
    simp only [sortLe, List.foldr] at *
    exact (insertLe_perm le y _).trans (List.Perm.cons y ih)

theorem pagesGo_join (n : ℕ) (hn : 0 < n) :
    ∀ (fuel : ℕ) (l : List α), l.length ≤ fuel → (pagesGo n fuel l).flatten = l := by
  intro fuel
  induction fuel with
  | zero =>
    intro l hl
    have : l = [] := List.length_eq_zero.mp (Nat.le_zero.mp hl)
    simp [this, pagesGo]
  | succ f ih =>
    intro l hl
    match l with
    | [] => simp [pagesGo]
    | x :: xs =>
      simp only [pagesGo, List.flatten_cons]
      rw [ih ((x :: xs).drop n)]
      · exact List.take_append_drop n (x :: xs)
      · have : ((x :: xs).drop n).length = (x :: xs).length - n := List.length_drop n _
        have hlen : (x :: xs).length ≤ f + 1 := hl
        omega

theorem pages_flatten (n : ℕ) (hn : 0 < n) (l : List α) : (pages n l).flatten = l :=
  pagesGo_join n hn l.length l (Nat.le_refl _)

theorem foldl_pages (n : ℕ) (hn : 0 < n) (f : β → α → β) (l : List α) (b : β) :
    (pages n l).foldl (fun acc page => page.foldl f acc) b = l.foldl f b := by
  rw [← List.foldl_flatten f, pages_flatten n hn]

theorem mem_rankedBranch {key toRow cmp top_k sps row}
    (h : row ∈ rankedBranch key toRow cmp top_k sps) :
    ∃ sp ∈ sps, row = toRow sp := by
  simp only [rankedBranch, List.mem_flatMap] at h
  obtain ⟨i, _, hrow⟩ := h
  simp only [List.mem_map] at hrow
  obtain ⟨sp, hsp, hr⟩ := hrow
  refine ⟨sp, ?_, hr.symm⟩
  have h1 : sp ∈ (sps.filter (fun sp => key sp == i)).foldr (insertLe cmp) [] :=
    List.take_subset _ _ hsp
  have h2 : sp ∈ sps.filter (fun sp => key sp == i) := (mem_sortLe cmp sp _).mp h1
  exact List.mem_of_mem_filter h2

theorem mem_compute_item_similarity_rows {events p cmp row}
    (h : row ∈ compute_item_similarity_rows events p cmp) :
    ∃ a b, row = toRowFwd (mkScoredPair events p.lookback_days a b) ∨
      row = toRowRev (mkScoredPair events p.lookback_days a b) := by
  have hsp : ∀ sp ∈ scoredPairs events p,
      ∃ a b, sp = mkScoredPair events p.lookback_days a b := by
    intro sp hs
    simp only [scoredPairs, List.mem_filter, List.mem_map] at hs
    obtain ⟨⟨q, _, hq⟩, _⟩ := hs
    exact ⟨q.1, q.2, hq.symm⟩
  rcases List.mem_append.mp h with h1 | h1
  · obtain ⟨sp, hs, hr⟩ := mem_rankedBranch h1
    obtain ⟨a, b, he⟩ := hsp sp hs
    exact ⟨a, b, Or.inl (by rw [hr, he])⟩
  · obtain ⟨sp, hs, hr⟩ := mem_rankedBranch h1
    obtain ⟨a, b, he⟩ := hsp sp hs
    exact ⟨a, b, Or.inr (by rw [hr, he])⟩


set_option maxRecDepth 8000

theorem foldl_processItem_apply (tbl : List SimEntry) (k : ℕ)
    (rcmp : SimEntry → SimEntry → Bool) :
    ∀ (items : List ℕ) (c : Cache) (j : ℕ),
      (items.foldl (processItem tbl k rcmp) c) j =
        if j ∈ items then itemEntry tbl k rcmp j else c j := by
  intro items
  induction items with
  | nil => intro c j; simp
  | cons i rest ih =>
    intro c j
    simp only [List.foldl_cons, ih, List.mem_cons]
    by_cases hr : j ∈ rest
    · simp [hr]
    · by_cases hj : j = i
      · subst hj; simp [hr, processItem]
      · simp [hr, hj, processItem]

theorem sync_item_similarity_apply (tbl : List SimEntry) (bs k : ℕ)
    (rcmp : SimEntry → SimEntry → Bool) (c : Cache) (j : ℕ) (h : 0 < bs) :
    sync_item_similarity tbl bs k rcmp c j =
      if j ∈ syncedItems tbl k rcmp then itemEntry tbl k rcmp j else c j := by
  unfold sync_item_similarity
  rw [foldl_pages bs h (processItem tbl k rcmp) (syncedItems tbl k rcmp) c]
  exact foldl_processItem_apply tbl k rcmp (syncedItems tbl k rcmp) c j

theorem simReadLe_respects : RespectsScoreDesc simReadLe := by
  intro x y
  constructor
  · intro h
    simp [simReadLe, h]
  · intro h
    have h1 : ¬(y.similarity_score < x.similarity_score) := lt_asymm h
    have h2 : x.similarity_score ≠ y.similarity_score := ne_of_lt h
    simp [simReadLe, h1, h2]

theorem simReadLeDesc_respects : RespectsScoreDesc simReadLeDesc := by
  intro x y
  constructor
  · intro h
    simp [simReadLeDesc, h]
  · intro h
    have h1 : ¬(y.similarity_score < x.similarity_score) := lt_asymm h
    have h2 : x.similarity_score ≠ y.similarity_score := ne_of_lt h
    simp [simReadLeDesc, h1, h2]

/-- C4: a sync with `top_k = 2` over rows scored [0.9, 0.7, 0.5, 0.3]
leaves the item-1 cache key holding exactly the two highest-scored
neighbors with the configured TTL, whatever the key held before, for
every positive batch size and every realized engine read order (the
scores are distinct, so the tie-break freedom does not matter). -/
theorem sync_top_k_cache_contents (c : Cache) (bs : ℕ)
    (rcmp : SimEntry → SimEntry → Bool) (h : 0 < bs)
    (hrc : RespectsScoreDesc rcmp) :
    sync_item_similarity tblSync bs 2 rcmp c 1 =
      some ([(11, 9/10), (12, 7/10)], ITEM_SIMILAR_TTL) := by
  have hfil : tblSync.filter (fun r => r.item_id == 1) =
      [⟨1, 11, 9/10⟩, ⟨1, 12, 7/10⟩, ⟨1, 13, 1/2⟩, ⟨1, 14, 3/10⟩] := rfl
  have hc12 : rcmp ⟨1, 11, 9/10⟩ ⟨1, 12, 7/10⟩ = true :=
    (hrc _ _).1 (by show (7/10 : ℚ) < 9/10; norm_num)
  have hc23 : rcmp ⟨1, 12, 7/10⟩ ⟨1, 13, 1/2⟩ = true :=
    (hrc _ _).1 (by show (1/2 : ℚ) < 7/10; norm_num)
  have hc34 : rcmp ⟨1, 13, 1/2⟩ ⟨1, 14, 3/10⟩ = true :=
    (hrc _ _).1 (by show (3/10 : ℚ) < 1/2; norm_num)
  have hsort : sortLe rcmp
      [⟨1, 11, 9/10⟩, ⟨1, 12, 7/10⟩, ⟨1, 13, 1/2⟩, ⟨1, 14, 3/10⟩] =
      [⟨1, 11, 9/10⟩, ⟨1, 12, 7/10⟩, ⟨1, 13, 1/2⟩, ⟨1, 14, 3/10⟩] := by
    simp only [sortLe, List.foldr_cons, List.foldr_nil, insertLe, hc12, hc23, hc34,
      eq_self_iff_true, if_true]
  have htop : topNeighbors tblSync 2 rcmp 1 = [(11, 9/10), (12, 7/10)] := by
    unfold topNeighbors
    rw [hfil, hsort]
    rfl
  have hne1 : (topNeighbors tblSync 2 rcmp 1).isEmpty = false := by
    rw [htop]
    rfl
  have hne2 : (topNeighbors tblSync 2 rcmp 2).isEmpty = false := rfl
  have hsync : syncedItems tblSync 2 rcmp = [1, 2] := by
    unfold syncedItems
    rw [show (tblSync.map (fun r => r.item_id)).dedup = [1, 2] by decide]
    rw [show ([1, 2] : List ℕ).filter
        (fun i => !(topNeighbors tblSync 2 rcmp i).isEmpty) = [1, 2] by
      simp [List.filter_cons, hne1, hne2]]
    rfl
  have hentry : itemEntry tblSync 2 rcmp 1 =
      some ([(11, 9/10), (12, 7/10)], ITEM_SIMILAR_TTL) := by
    unfold itemEntry
    rw [htop]
    rfl
  have hm : (1 : ℕ) ∈ syncedItems tblSync 2 rcmp := by
    rw [hsync]
    simp
  rw [sync_item_similarity_apply tblSync bs 2 rcmp c 1 h, if_pos hm]
  exact hentry

theorem sync_top_k_cache_contents_witness :
    0 < 3 ∧ RespectsScoreDesc simReadLe ∧
    sync_item_similarity tblSync 3 2 simReadLe cachePrior 1 =
      some ([(11, 9/10), (12, 7/10)], ITEM_SIMILAR_TTL) :=
  ⟨by decide, simReadLe_respects,
    sync_top_k_cache_contents cachePrior 3 simReadLe (by decide) simReadLe_respects⟩

/-- C5 counterexample: the table `tblTie` holds two distinct neighbors of
item 1 tied at score 0.5 with `top_k = 1`.  Both `simReadLe` and
`simReadLeDesc` are legitimate realized orders of
`ORDER BY similarity_score DESC` (they respect all strict score
comparisons), yet two successive syncs over the unchanged table that
draw these two tie orders leave different members under the item-1 key:
the claim as stated is false when tied scores straddle the top_k
boundary, because the engine does not guarantee a stable tie order
across runs. -/
theorem sync_not_idempotent_under_ties :
    RespectsScoreDesc simReadLe ∧
    RespectsScoreDesc simReadLeDesc ∧
    sync_item_similarity tblTie 1 1 simReadLe cacheEmpty 1 =
      some ([(11, 1/2)], ITEM_SIMILAR_TTL) ∧
    sync_item_similarity tblTie 1 1 simReadLeDesc
        (sync_item_similarity tblTie 1 1 simReadLe cacheEmpty) 1 =
      some ([(12, 1/2)], ITEM_SIMILAR_TTL) ∧
    (some ([(12, (1 : ℚ)/2)], ITEM_SIMILAR_TTL) : Option CacheEntry) ≠
      some ([(11, 1/2)], ITEM_SIMILAR_TTL) := by
  refine ⟨simReadLe_respects, simReadLeDesc_respects,
    by with_unfolding_all rfl, by with_unfolding_all rfl, ?_⟩
  simp

/-- C5 (amended): running the sync twice in succession over an unchanged
similarity table yields the same cache contents at every key, provided
the engine returns the same ranking order in both runs — in particular
whenever no distinct neighbors tie at the `top_k` boundary.  With such a
tie the engine order may differ between runs and the cached members can
change (see the counterexample). -/
theorem sync_idempotent (tbl : List SimEntry) (bs k : ℕ)
    (rcmp : SimEntry → SimEntry → Bool) (c : Cache) (j : ℕ) (h : 0 < bs) :
    sync_item_similarity tbl bs k rcmp (sync_item_similarity tbl bs k rcmp c) j =
      sync_item_similarity tbl bs k rcmp c j := by
  rw [sync_item_similarity_apply tbl bs k rcmp (sync_item_similarity tbl bs k rcmp c) j h]
  by_cases hj : j ∈ syncedItems tbl k rcmp
  · rw [sync_item_similarity_apply tbl bs k rcmp c j h]
    simp [hj]
  · simp [hj]

theorem sync_idempotent_witness :
    0 < 3 ∧
    sync_item_similarity tblSync 3 2 simReadLe
        (sync_item_similarity tblSync 3 2 simReadLe cachePrior) 1 =
      sync_item_similarity tblSync 3 2 simReadLe cachePrior 1 :=
  ⟨by decide, sync_idempotent tblSync 3 2 simReadLe cachePrior 1 (by decide)⟩

/-- C8: a failure of the compute INSERT or of the statistics query inside
`compute_item_similarity`, `compute_user_similarity` or
`update_user_recent_items` is caught and surfaced as an error dict; the
method returns normally instead of raising. -/
theorem query_failure_returns_error_dict :
    (∀ (o : QueryOutcomes) (m : String), o.compute_result = .error m →
      compute_item_similarity_stats o = .ok (.errorDict m)) ∧
    (∀ (o : QueryOutcomes) (m : String), o.compute_result = .ok () → o.stats_result = .error m →
      compute_item_similarity_stats o = .ok (.errorDict m)) ∧
    (∀ (o : QueryOutcomes) (m : String), o.compute_result = .error m →
      compute_user_similarity_stats o = .ok (.errorDict m)) ∧
    (∀ (o : QueryOutcomes) (m : String), o.compute_result = .ok () → o.stats_result = .error m →
      compute_user_similarity_stats o = .ok (.errorDict m)) ∧
    (∀ (o : RecentOutcomes) (m : String), o.insert_result = .error m →
      update_user_recent_items_stats o = .ok (.errorDict m)) ∧
    (∀ (o : RecentOutcomes) (m : String), o.insert_result = .ok () → o.stats_result = .error m →
      update_user_recent_items_stats o = .ok (.errorDict m)) := by
  refine ⟨?_, ?_, ?_, ?_, ?_, ?_⟩
  · intro o m h
    unfold compute_item_similarity_stats
    rw [h]
    rfl
  · intro o m h h2
    unfold compute_item_similarity_stats
    rw [h, h2]
    rfl
  · intro o m h
    unfold compute_user_similarity_stats
    rw [h]
    rfl
  · intro o m h h2
    unfold compute_user_similarity_stats
    rw [h, h2]
    rfl
  · intro o m h
    unfold update_user_recent_items_stats
    rw [h]
    rfl
  · intro o m h h2
    unfold update_user_recent_items_stats
    rw [h, h2]
    rfl

theorem query_failure_returns_error_dict_witness :
    outcomesComputeFail.compute_result = .error "boom" ∧
    compute_item_similarity_stats outcomesComputeFail = .ok (.errorDict "boom") ∧
    outcomesStatsFail.compute_result = .ok () ∧
    outcomesStatsFail.stats_result = .error "stats boom" ∧
    compute_user_similarity_stats outcomesStatsFail = .ok (.errorDict "stats boom") ∧
    update_user_recent_items_stats outcomesRecentFail = .ok (.errorDict "stats boom") :=
  ⟨rfl, query_failure_returns_error_dict.1 outcomesComputeFail "boom" rfl,
   rfl, rfl,
   query_failure_returns_error_dict.2.2.2.1 outcomesStatsFail "stats boom" rfl rfl,
   query_failure_returns_error_dict.2.2.2.2.2 outcomesRecentFail "stats boom" rfl rfl⟩

theorem isErr_iff (x : Except String Unit) : isErr x = true ↔ ∃ m, x = .error m := by
  cases x <;> simp [isErr]

theorem runStages_failure :
    ∀ (l : List Stage) (o : Stage → Except String Unit) (s : Stage),
      l.find? (fun t => isErr (o t)) = some s →
      runStages l o = (1, l.takeWhile (fun t => !(isErr (o t))) ++ [s]) := by
  intro l
  induction l with
  | nil => intro o s h; simp [List.find?] at h
  | cons a rest ih =>
    intro o s h
    by_cases ha : isErr (o a) = true
    · obtain ⟨m, hm⟩ := (isErr_iff (o a)).mp ha
      have ha2 : (fun t => isErr (o t)) a = true := ha
      have hs : s = a := by
        rw [List.find?_cons_of_pos rest ha2] at h
        exact (Option.some_injective _ h).symm
      subst hs
      simp [runStages, hm, List.takeWhile_cons, isErr]
    · have hfalse : isErr (o a) = false := by simpa using ha
      have ha2 : ¬((fun t => isErr (o t)) a = true) := ha
      have hoa : o a = .ok () := by
        cases hx : o a with
        | ok u => cases u; rfl
        | error e => rw [hx] at hfalse; simp [isErr] at hfalse
      rw [List.find?_cons_of_neg rest ha2] at h
      simp [runStages, hoa, ih o s h, List.takeWhile_cons, hfalse, isErr]

/-- C9: if any selected orchestrator stage raises, the run exits with
status 1, the started stages are exactly the successful prefix plus the
failing stage (no later stage runs), and no stage runs twice. -/
theorem stage_failure_aborts_run (f : PipelineFlags) (o : Stage → Except String Unit) (s : Stage)
    (h : (selectedStages f).find? (fun t => isErr (o t)) = some s) :
    (pipeline_main f o).1 = 1 ∧
    (pipeline_main f o).2 =
      (selectedStages f).takeWhile (fun t => !(isErr (o t))) ++ [s] ∧
    (pipeline_main f o).2.Nodup := by
  have hrun := runStages_failure (selectedStages f) o s h
  have hfst : (pipeline_main f o).1 = 1 := by
    unfold pipeline_main
    rw [hrun]
  have hsnd : (pipeline_main f o).2 =
      (selectedStages f).takeWhile (fun t => !(isErr (o t))) ++ [s] := by
    unfold pipeline_main
    rw [hrun]
  refine ⟨hfst, hsnd, ?_⟩
  rw [hsnd]
  have hsel : (selectedStages f).Nodup := by
    unfold selectedStages
    exact List.Nodup.filter _
      (by decide : ([Stage.similarity, Stage.sync, Stage.extract, Stage.train]).Nodup)
  have htw : ((selectedStages f).takeWhile (fun t => !(isErr (o t)))).Nodup :=
    (List.takeWhile_sublist _).nodup hsel
  refine List.Nodup.append htw (List.nodup_singleton s) ?_
  intro x hx hxs
  have hpx := List.mem_takeWhile_imp hx
  simp only [Bool.not_eq_true'] at hpx
  have hps : isErr (o s) = true := by
    have := List.find?_some h
    simpa using this
  have hxs2 : x = s := by simpa using hxs
  rw [hxs2, hps] at hpx
  simp at hpx

theorem stage_failure_aborts_run_witness :
    (selectedStages flagsNone).find? (fun t => isErr (stageOutcomesSyncFail t)) =
      some Stage.sync ∧
    (pipeline_main flagsNone stageOutcomesSyncFail).1 = 1 ∧
    (pipeline_main flagsNone stageOutcomesSyncFail).2 =
      (selectedStages flagsNone).takeWhile
        (fun t => !(isErr (stageOutcomesSyncFail t))) ++ [Stage.sync] ∧
    (pipeline_main flagsNone stageOutcomesSyncFail).2.Nodup :=
  ⟨by decide, stage_failure_aborts_run flagsNone stageOutcomesSyncFail Stage.sync (by decide)⟩


theorem shuffle42_perm (l : List α) : List.Perm (shuffle42 l) l := by
  have h2 := (sortLe_perm shuffleLe l.enum).map Prod.snd
  rw [List.enum_map_snd] at h2
  exact h2

theorem mapM_derive_ok :
    ∀ (rows : List JoinedRow) (out : List DatasetRow),
      compute_derived_features rows = .ok out → out.map DatasetRow.row = rows := by
  intro rows
  induction rows with
  | nil =>
    intro out h
    simp only [compute_derived_features, List.mapM_nil, pure] at h
    cases h
    rfl
  | cons j rest ih =>
    intro out h
    simp only [compute_derived_features, List.mapM_cons] at h
    cases hd : deriveRow j with
    | error m => rw [hd] at h; simp [Except.map, Except.bind, bind, Except.map] at h
    | ok d =>
      rw [hd] at h
      cases hrest : rest.mapM (fun j => (deriveRow j).map (fun d => (⟨j, d⟩ : DatasetRow))) with
      | error m =>
        rw [hrest] at h
        simp [Except.map, Except.bind, bind] at h
      | ok bs =>
        rw [hrest] at h
        simp only [Except.map, Except.bind, bind, pure] at h
        cases h
        have hbs := ih bs hrest
        simp [hbs]

theorem mapM_derive_error (rows : List JoinedRow) (j : JoinedRow) (m0 : String)
    (hj : j ∈ rows) (hd : deriveRow j = .error m0) :
    ∃ m, compute_derived_features rows = .error m := by
  induction rows with
  | nil => cases hj
  | cons a rest ih =>
    cases hda : deriveRow a with
    | error e =>
      refine ⟨e, ?_⟩
      simp only [compute_derived_features, List.mapM_cons]
      rw [hda]
      rfl
    | ok d =>
      have hjr : j ∈ rest := by
        rcases List.mem_cons.mp hj with h1 | h1
        · subst h1; rw [hda] at hd; cases hd
        · exact h1
      obtain ⟨m, hm⟩ := ih hjr
      refine ⟨m, ?_⟩
      simp only [compute_derived_features, List.mapM_cons]
      rw [hda]
      simp only [compute_derived_features] at hm
      rw [hm]
      rfl

theorem deriveRow_error_of_zero (j : JoinedRow)
    (h : j.base.position_in_feed = 0 ∨ j.base.completion_rate = 0) :
    ∃ m, deriveRow j = .error m := by
  rcases h with h0 | h0
  · have hpb : positionBucket j.base.position_in_feed = none := by
      rw [h0]
      with_unfolding_all rfl
    cases hcb : completionBucket j.base.completion_rate <;>
      exact ⟨"cannot convert non-finite values (NA or inf) to integer",
        by simp [deriveRow, hpb, hcb]⟩
  · have hcb : completionBucket j.base.completion_rate = none := by
      rw [h0]
      with_unfolding_all rfl
    cases hpb : positionBucket j.base.position_in_feed <;>
      exact ⟨"cannot convert non-finite values (NA or inf) to integer",
        by simp [deriveRow, hpb, hcb]⟩

theorem mapM_derive_filterMap :
    ∀ (rows : List JoinedRow) (out : List DatasetRow),
      compute_derived_features rows = .ok out →
      out = rows.filterMap
        (fun j => (deriveRow j).toOption.map (fun d => (⟨j, d⟩ : DatasetRow))) := by
  intro rows
  induction rows with
  | nil =>
    intro out h
    simp only [compute_derived_features, List.mapM_nil, pure] at h
    cases h
    rfl
  | cons j rest ih =>
    intro out h
    simp only [compute_derived_features, List.mapM_cons] at h
    cases hd : deriveRow j with
    | error m => rw [hd] at h; simp [Except.map, Except.bind, bind] at h
    | ok d =>
      rw [hd] at h
      cases hrest : rest.mapM (fun j => (deriveRow j).map (fun d => (⟨j, d⟩ : DatasetRow))) with
      | error m =>
        rw [hrest] at h
        simp [Except.map, Except.bind, bind] at h
      | ok bs =>
        rw [hrest] at h
        simp only [Except.map, Except.bind, bind, pure] at h
        cases h
        have hb := ih bs hrest
        rw [hb, List.filterMap_cons, hd]
        rfl

/-- C10: a sample frame containing a row with `position_in_feed = 0` or
`completion_rate = 0` makes the left-open zero-based bucket of that row
NaN, the integer cast of the bucket column raises, and
`build_training_dataset` therefore fails on such input instead of
exporting it. -/
theorem bucket_cast_raises :
    (∀ (rows : List JoinedRow) (j : JoinedRow), j ∈ rows →
      (j.base.position_in_feed = 0 ∨ j.base.completion_rate = 0) →
      ∃ m, compute_derived_features rows = .error m) ∧
    (∀ (tbl : List TrainingRow) (s e : ℕ) (ratio : ℚ) (posDraw negDraw : List TrainingRow)
      (feats : FeatureMap) (r : TrainingRow),
      r ∈ posDraw ++ (extract_negative_samples tbl s e ratio negDraw).1 →
      (r.position_in_feed = 0 ∨ r.completion_rate = 0) →
      ∃ m, build_training_dataset tbl s e ratio posDraw negDraw feats = .error m) := by
  have part1 : ∀ (rows : List JoinedRow) (j : JoinedRow), j ∈ rows →
      (j.base.position_in_feed = 0 ∨ j.base.completion_rate = 0) →
      ∃ m, compute_derived_features rows = .error m := by
    intro rows j hj hz
    obtain ⟨m0, hm0⟩ := deriveRow_error_of_zero j hz
    exact mapM_derive_error rows j m0 hj hm0
  refine ⟨part1, ?_⟩
  intro tbl s e ratio posDraw negDraw feats r hr hz
  have hmemj : (⟨r, feats (r.user_id, r.post_id)⟩ : JoinedRow) ∈
      join_features feats (posDraw ++
        (extract_negative_samples tbl s e ratio negDraw).1) := by
    unfold join_features
    exact List.mem_map_of_mem _ hr
  obtain ⟨m, hm⟩ := part1 _ ⟨r, feats (r.user_id, r.post_id)⟩ hmemj hz
  refine ⟨m, ?_⟩
  unfold build_training_dataset
  have hne : (posDraw ++
      (extract_negative_samples tbl s e ratio negDraw).1).isEmpty = false := by
    rw [List.isEmpty_eq_false]
    exact List.ne_nil_of_mem hr
  rw [hne]
  simp only [Bool.false_eq_true, if_false]
  rw [hm]

theorem bucket_cast_raises_witness :
    negRowZero ∈ ([posRow] : List TrainingRow) ++
      (extract_negative_samples tblZero 0 9 1 [negRowZero]).1 ∧
    (negRowZero.position_in_feed = 0 ∨ negRowZero.completion_rate = 0) ∧
    ∃ m, build_training_dataset tblZero 0 9 1 [posRow] [negRowZero] noFeatures = .error m :=
  ⟨by with_unfolding_all decide, Or.inr (by with_unfolding_all rfl),
    bucket_cast_raises.2 tblZero 0 9 1 [posRow] [negRowZero] noFeatures negRowZero
      (by with_unfolding_all decide) (Or.inr (by with_unfolding_all rfl))⟩

/-- C7 (amended): a date range with zero positive rows yields an empty
dataset with the warning logged; the negative-sample query is still
issued, but with limit exactly 0 (never negative or undefined). -/
theorem zero_positive_build_empty (tbl : List TrainingRow) (s e : ℕ) (ratio : ℚ)
    (posDraw negDraw : List TrainingRow) (feats : FeatureMap)
    (hpos : extract_positive_samples tbl s e = [])
    (hpdraw : List.Perm posDraw (extract_positive_samples tbl s e)) :
    build_training_dataset tbl s e ratio posDraw negDraw feats = .ok ⟨[], some 0, true⟩ := by
  have hpnil : posDraw = [] := by
    rw [hpos] at hpdraw
    exact List.Perm.eq_nil hpdraw
  have hlim : (extract_negative_samples tbl s e ratio negDraw).2 = 0 := by
    unfold extract_negative_samples
    rw [hpos]
    simp [pyInt]
  have hneg : (extract_negative_samples tbl s e ratio negDraw).1 = [] := by
    unfold extract_negative_samples
    rw [hpos]
    simp [pyInt]
  unfold build_training_dataset
  rw [hpnil, hneg, hlim]
  rfl

theorem zero_positive_build_empty_witness :
    extract_positive_samples tblNoPos 0 9 = [] ∧
    List.Perm ([] : List TrainingRow) (extract_positive_samples tblNoPos 0 9) ∧
    build_training_dataset tblNoPos 0 9 4 [] [negRowA, negRowB] noFeatures =
      .ok ⟨[], some 0, true⟩ :=
  ⟨by with_unfolding_all rfl, by with_unfolding_all decide,
    zero_positive_build_empty tblNoPos 0 9 4 [] [negRowA, negRowB] noFeatures
      (by with_unfolding_all rfl) (by with_unfolding_all decide)⟩

/-- C7 counterexample: with zero positives the negative-sample query IS
issued (with `LIMIT 0`), contradicting the claim that no call is made. -/
theorem zero_positive_negative_query_called :
    extract_positive_samples tblNoPos 0 9 = [] ∧
    build_training_dataset tblNoPos 0 9 4 [] [negRowA, negRowB] noFeatures =
      .ok ⟨[], some 0, true⟩ ∧
    (some (0 : ℤ) ≠ (none : Option ℤ)) :=
  ⟨by with_unfolding_all rfl, by with_unfolding_all rfl, by simp⟩

/-- C6 counterexample: the same table, range and ratio with two different
engine arrangements of the eligible negatives (both valid outcomes of
`ORDER BY rand()`, and the same positive arrangement) produce different
datasets, so two calls with identical inputs need not be row-identical. -/
theorem build_not_reproducible :
    List.Perm [posRow] (extract_positive_samples tblTrain 0 9) ∧
    List.Perm [negRowA, negRowB] (eligibleNegatives tblTrain 0 9) ∧
    List.Perm [negRowB, negRowA] (eligibleNegatives tblTrain 0 9) ∧
    build_training_dataset tblTrain 0 9 1 [posRow] [negRowA, negRowB] noFeatures =
      .ok ⟨[dsPos, dsNegA], some 1, false⟩ ∧
    build_training_dataset tblTrain 0 9 1 [posRow] [negRowB, negRowA] noFeatures =
      .ok ⟨[dsPos, dsNegB], some 1, false⟩ ∧
    ([dsPos, dsNegA] : List DatasetRow) ≠ [dsPos, dsNegB] := by
  refine ⟨by with_unfolding_all decide, by with_unfolding_all decide,
    by with_unfolding_all decide,
    by with_unfolding_all rfl, by with_unfolding_all rfl, ?_⟩
  simp [dsNegA, dsNegB, negRowA, negRowB]

theorem build_rows_perm_of_pos_perm (tbl : List TrainingRow) (s e : ℕ) (ratio : ℚ)
    (feats : FeatureMap) (p1 p2 d : List TrainingRow) (out1 out2 : BuildResult)
    (hp : List.Perm p1 p2)
    (h1 : build_training_dataset tbl s e ratio p1 d feats = .ok out1)
    (h2 : build_training_dataset tbl s e ratio p2 d feats = .ok out2) :
    List.Perm out1.rows out2.rows := by
  have hall : List.Perm (p1 ++ (extract_negative_samples tbl s e ratio d).1)
      (p2 ++ (extract_negative_samples tbl s e ratio d).1) :=
    hp.append_right _
  unfold build_training_dataset at h1 h2
  split at h1
  · rename_i he1
    have he2 : (p2 ++ (extract_negative_samples tbl s e ratio d).1).isEmpty = true := by
      rw [List.isEmpty_iff] at he1 ⊢
      rw [he1] at hall
      exact hall.symm.eq_nil
    rw [if_pos he2] at h2
    cases h1
    cases h2
    exact List.Perm.refl _
  · rename_i he1
    have he2 : ¬((p2 ++ (extract_negative_samples tbl s e ratio d).1).isEmpty = true) := by
      intro hcon
      apply he1
      rw [List.isEmpty_iff] at hcon ⊢
      rw [hcon] at hall
      exact hall.eq_nil
    rw [if_neg he2] at h2
    split at h1
    · rename_i derived1 heq1
      split at h2
      · rename_i derived2 heq2
        cases h1
        cases h2
        have hchar1 := mapM_derive_filterMap _ derived1 heq1
        have hchar2 := mapM_derive_filterMap _ derived2 heq2
        have hjoin : List.Perm
            (join_features feats (p1 ++ (extract_negative_samples tbl s e ratio d).1))
            (join_features feats (p2 ++ (extract_negative_samples tbl s e ratio d).1)) :=
          hall.map _
        have hder : List.Perm derived1 derived2 := by
          rw [hchar1, hchar2]
          exact hjoin.filterMap _
        exact ((shuffle42_perm derived1).trans hder).trans (shuffle42_perm derived2).symm
      · cases h2
    · cases h1

/-- C6 (amended): the pipeline output is a deterministic function of the
table, range, ratio, feature table and the two engine-returned row
orders.  Calls agreeing on both the positive-row arrangement and the
negative draw are row-identical; calls agreeing on the negative draw
whose positive arrangements are permutations of one another produce the
same dataset rows up to order.  With only the table contents fixed the
output is therefore reproducible as a multiset at best, never as a row
order: neither the unordered positive SELECT nor the unseeded
`ORDER BY rand()` is a function of the table. -/
theorem build_deterministic_given_draws :
    (∀ (tbl : List TrainingRow) (s e : ℕ) (ratio : ℚ) (feats : FeatureMap)
      (p1 p2 d1 d2 : List TrainingRow), p1 = p2 → d1 = d2 →
      build_training_dataset tbl s e ratio p1 d1 feats =
        build_training_dataset tbl s e ratio p2 d2 feats) ∧
    (∀ (tbl : List TrainingRow) (s e : ℕ) (ratio : ℚ) (feats : FeatureMap)
      (p1 p2 d : List TrainingRow) (out1 out2 : BuildResult),
      List.Perm p1 p2 →
      build_training_dataset tbl s e ratio p1 d feats = .ok out1 →
      build_training_dataset tbl s e ratio p2 d feats = .ok out2 →
      List.Perm out1.rows out2.rows) := by
  constructor
  · intro tbl s e ratio feats p1 p2 d1 d2 hpe hde
    rw [hpe, hde]
  · intro tbl s e ratio feats p1 p2 d out1 out2 hp h1 h2
    exact build_rows_perm_of_pos_perm tbl s e ratio feats p1 p2 d out1 out2 hp h1 h2

theorem build_deterministic_given_draws_witness :
    ([posRow] : List TrainingRow) = [posRow] ∧
    ([negRowA, negRowB] : List TrainingRow) = [negRowA, negRowB] ∧
    build_training_dataset tblTrain 0 9 1 [posRow] [negRowA, negRowB] noFeatures =
      build_training_dataset tblTrain 0 9 1 [posRow] [negRowA, negRowB] noFeatures ∧
    List.Perm [posRow, posRow2] [posRow2, posRow] ∧
    build_training_dataset tblTrain2 0 9 1 [posRow, posRow2] [negRowA, negRowB] noFeatures =
      .ok resPerm1 ∧
    build_training_dataset tblTrain2 0 9 1 [posRow2, posRow] [negRowA, negRowB] noFeatures =
      .ok resPerm2 ∧
    List.Perm resPerm1.rows resPerm2.rows := by
  have hperm : List.Perm [posRow, posRow2] [posRow2, posRow] := by
    with_unfolding_all decide
  have hb1 : build_training_dataset tblTrain2 0 9 1 [posRow, posRow2] [negRowA, negRowB]
      noFeatures = .ok resPerm1 := by
    with_unfolding_all rfl
  have hb2 : build_training_dataset tblTrain2 0 9 1 [posRow2, posRow] [negRowA, negRowB]
      noFeatures = .ok resPerm2 := by
    with_unfolding_all rfl
  exact ⟨rfl, rfl,
    build_deterministic_given_draws.1 tblTrain 0 9 1 noFeatures [posRow] [posRow]
      [negRowA, negRowB] [negRowA, negRowB] rfl rfl,
    hperm, hb1, hb2,
    build_deterministic_given_draws.2 tblTrain2 0 9 1 noFeatures [posRow, posRow2]
      [posRow2, posRow] [negRowA, negRowB] resPerm1 resPerm2 hperm hb1 hb2⟩

theorem pos_label_one (tbl : List TrainingRow) (s e : ℕ) :
    ∀ r ∈ extract_positive_samples tbl s e, r.label = 1 := by
  intro r hr
  have h := (List.mem_filter.mp hr).2
  have h2 := (Bool.and_eq_true _ _).mp h
  simpa using h2.2

theorem neg_label_zero (tbl : List TrainingRow) (s e : ℕ) :
    ∀ r ∈ eligibleNegatives tbl s e, r.label = 0 := by
  intro r hr
  have h := (List.mem_filter.mp hr).2
  have h2 := (Bool.and_eq_true _ _).mp h
  simpa using h2.2

/-- C3 (amended): whenever `build_training_dataset` returns a dataset, it
holds exactly `P` positive rows and exactly
`min(N_available, floor(P * negative_ratio))` negative rows — the limit
comes from Python `int()` truncation, not rounding — for every
engine-returned arrangement of the positives and of the negatives. -/
theorem negative_ratio_floor_law (tbl : List TrainingRow) (s e : ℕ) (ratio : ℚ)
    (posDraw negDraw : List TrainingRow) (feats : FeatureMap) (out : BuildResult)
    (hr : 0 ≤ ratio)
    (hpdraw : List.Perm posDraw (extract_positive_samples tbl s e))
    (hdraw : List.Perm negDraw (eligibleNegatives tbl s e))
    (hbuild : build_training_dataset tbl s e ratio posDraw negDraw feats = .ok out) :
    labelCount out.rows 1 = (extract_positive_samples tbl s e).length ∧
    labelCount out.rows 0 =
      min (eligibleNegatives tbl s e).length
        (Int.toNat ⌊((extract_positive_samples tbl s e).length : ℚ) * ratio⌋) := by
  have hfloor : pyInt (((extract_positive_samples tbl s e).length : ℚ) * ratio) =
      ⌊((extract_positive_samples tbl s e).length : ℚ) * ratio⌋ := by
    unfold pyInt
    rw [if_pos (mul_nonneg (by positivity) hr)]
  have hnegdef : (extract_negative_samples tbl s e ratio negDraw).1 =
      negDraw.take (Int.toNat ⌊((extract_positive_samples tbl s e).length : ℚ) * ratio⌋) := by
    simp only [extract_negative_samples]
    rw [hfloor]
  have hposlab : ∀ r ∈ posDraw, r.label = 1 := by
    intro r hrr
    exact pos_label_one tbl s e r (hpdraw.mem_iff.mp hrr)
  have hneglab : ∀ r ∈ (extract_negative_samples tbl s e ratio negDraw).1, r.label = 0 := by
    intro r hrr
    rw [hnegdef] at hrr
    exact neg_label_zero tbl s e r (hdraw.mem_iff.mp (List.take_subset _ _ hrr))
  have hcount : ∀ (lab : ℕ),
      labelCount out.rows lab =
        (posDraw ++ (extract_negative_samples tbl s e ratio negDraw).1).countP
          (fun r => r.label == lab) := by
    intro lab
    unfold build_training_dataset at hbuild
    split at hbuild
    · rename_i hempty
      have hout : out = ⟨[], some (extract_negative_samples tbl s e ratio negDraw).2, true⟩ := by
        cases hbuild
        rfl
      rw [hout]
      rw [List.isEmpty_iff] at hempty
      rw [hempty]
      rfl
    · rename_i hne
      split at hbuild
      · rename_i derived heq
        have hout : out =
            ⟨shuffle42 derived, some (extract_negative_samples tbl s e ratio negDraw).2,
              false⟩ := by
          cases hbuild
          rfl
        rw [hout]
        show (shuffle42 derived).countP (fun dd => dd.row.base.label == lab) = _
        rw [(shuffle42_perm derived).countP_eq]
        have hmap := mapM_derive_ok _ derived heq
        have h1 : derived.countP (fun dd => dd.row.base.label == lab) =
            (derived.map DatasetRow.row).countP (fun j => j.base.label == lab) := by
          rw [List.countP_map]
          rfl
        rw [h1, hmap]
        unfold join_features
        rw [List.countP_map]
        rfl
      · cases hbuild
  have hP : posDraw.countP (fun r => r.label == 1) =
      (extract_positive_samples tbl s e).length := by
    rw [← hpdraw.length_eq, List.countP_eq_length]
    intro r hrr
    simp [hposlab r hrr]
  have hP0 : posDraw.countP (fun r => r.label == 0) = 0 := by
    rw [List.countP_eq_zero]
    intro r hrr
    simp [hposlab r hrr]
  have hN1 : (extract_negative_samples tbl s e ratio negDraw).1.countP
      (fun r => r.label == 1) = 0 := by
    rw [List.countP_eq_zero]
    intro r hrr
    simp [hneglab r hrr]
  have hN0 : (extract_negative_samples tbl s e ratio negDraw).1.countP
      (fun r => r.label == 0) =
      min (eligibleNegatives tbl s e).length
        (Int.toNat ⌊((extract_positive_samples tbl s e).length : ℚ) * ratio⌋) := by
    have hlen : (extract_negative_samples tbl s e ratio negDraw).1.length =
        min (eligibleNegatives tbl s e).length
          (Int.toNat ⌊((extract_positive_samples tbl s e).length : ℚ) * ratio⌋) := by
      rw [hnegdef, List.length_take, hdraw.length_eq, Nat.min_comm]
    rw [← hlen, List.countP_eq_length]
    intro r hrr
    simp [hneglab r hrr]
  constructor
  · rw [hcount 1, List.countP_append, hP, hN1]
    exact Nat.add_zero _
  · rw [hcount 0, List.countP_append, hP0, hN0]
    exact Nat.zero_add _

theorem negative_ratio_floor_law_witness :
    0 ≤ (3/2 : ℚ) ∧
    List.Perm [posRow] (extract_positive_samples tblTrain 0 9) ∧
    List.Perm [negRowA, negRowB] (eligibleNegatives tblTrain 0 9) ∧
    build_training_dataset tblTrain 0 9 (3/2) [posRow] [negRowA, negRowB] noFeatures =
      .ok resRatio ∧
    labelCount resRatio.rows 1 = (extract_positive_samples tblTrain 0 9).length ∧
    labelCount resRatio.rows 0 =
      min (eligibleNegatives tblTrain 0 9).length
        (Int.toNat ⌊((extract_positive_samples tblTrain 0 9).length : ℚ) * (3/2)⌋) := by
  have h1 : 0 ≤ (3/2 : ℚ) := by norm_num
  have hp : List.Perm [posRow] (extract_positive_samples tblTrain 0 9) := by
    with_unfolding_all decide
  have h2 : List.Perm [negRowA, negRowB] (eligibleNegatives tblTrain 0 9) := by
    with_unfolding_all decide
  have h3 : build_training_dataset tblTrain 0 9 (3/2) [posRow] [negRowA, negRowB]
      noFeatures = .ok resRatio := by
    with_unfolding_all rfl
  have h4 := negative_ratio_floor_law tblTrain 0 9 (3/2) [posRow] [negRowA, negRowB]
    noFeatures resRatio h1 hp h2 h3
  exact ⟨h1, hp, h2, h3, h4.1, h4.2⟩

/-- C3 counterexample: with one positive row, two available negatives and
ratio 3/2 the code samples `int(1 * 1.5) = 1` negative, while the claim
predicts `min(2, round(1.5)) = 2`. -/
theorem negative_ratio_round_counterexample :
    List.Perm [posRow] (extract_positive_samples tblTrain 0 9) ∧
    List.Perm [negRowA, negRowB] (eligibleNegatives tblTrain 0 9) ∧
    build_training_dataset tblTrain 0 9 (3/2) [posRow] [negRowA, negRowB] noFeatures =
      .ok resRatio ∧
    labelCount resRatio.rows 0 = 1 ∧
    min (eligibleNegatives tblTrain 0 9).length
      (Int.toNat (round (((extract_positive_samples tblTrain 0 9).length : ℚ) * (3/2)))) = 2 ∧
    (1 : ℕ) ≠ 2 := by
  refine ⟨by with_unfolding_all decide, by with_unfolding_all decide,
    by with_unfolding_all rfl, by with_unfolding_all decide, ?_, by decide⟩
  have hlen : (extract_positive_samples tblTrain 0 9).length = 1 := by
    with_unfolding_all rfl
  have helig : (eligibleNegatives tblTrain 0 9).length = 2 := by
    with_unfolding_all rfl
  rw [hlen, helig]
  norm_num [round_eq]

/-- C1: every row inserted by `compute_item_similarity` carries exactly
the set quantities of the two items' qualifying user sets, so its stored
similarity score equals `0.6*jaccard + 0.4*cosine` of those sets — for
any engine ranking order. -/
theorem item_similarity_score_formula (events : List WatchEvent) (p : SimilarityParams)
    (cmp : ScoredPair → ScoredPair → Bool) (row : SimRow)
    (h : row ∈ compute_item_similarity_rows events p cmp) :
    scoreFormulaProp events p.lookback_days row := by
  obtain ⟨a, b, hc⟩ := mem_compute_item_similarity_rows h
  rcases hc with hc | hc <;> subst hc
  · exact ⟨rfl, rfl, rfl, rfl, rfl, rfl⟩
  · unfold scoreFormulaProp
    simp only [toRowRev, mkScoredPair]
    rw [Finset.inter_comm (itemUserSet events p.lookback_days b)
        (itemUserSet events p.lookback_days a),
      Finset.union_comm (itemUserSet events p.lookback_days b)
        (itemUserSet events p.lookback_days a)]
    simp

theorem item_similarity_score_formula_witness :
    rowScenario ∈ compute_item_similarity_rows eventsScenario paramsScenario cmpDefault ∧
    scoreFormulaProp eventsScenario paramsScenario.lookback_days rowScenario ∧
    ((0.6 : ℝ) * ((6 : ℝ) / 14) + (0.4 : ℝ) * ((6 : ℝ) / Real.sqrt (10 * 10)) =
      (0.6 : ℝ) * ((6 : ℝ) / 14) + (0.4 : ℝ) * ((6 : ℝ) / 10)) := by
  have hmem : rowScenario ∈ compute_item_similarity_rows eventsScenario paramsScenario
      cmpDefault := by
    with_unfolding_all decide
  have hsqrt : Real.sqrt ((10 : ℝ) * 10) = 10 := by
    rw [show ((10 : ℝ) * 10) = 10 ^ 2 by norm_num,
      Real.sqrt_sq (by norm_num : (0 : ℝ) ≤ 10)]
  exact ⟨hmem,
    item_similarity_score_formula eventsScenario paramsScenario cmpDefault rowScenario hmem,
    by rw [hsqrt]⟩

/-- C2 failing input, evaluated: with `top_k_per_item = 1` the insert
still stores two outgoing rows for item 2 (one ranked in each UNION
branch), violating the claimed per-item cap. -/
theorem top_k_cap_violation :
    outgoingRows (compute_item_similarity_rows eventsCap paramsCap cmpDefault) 2 = 2 ∧
    paramsCap.top_k_per_item = 1 ∧
    ¬(outgoingRows (compute_item_similarity_rows eventsCap paramsCap cmpDefault) 2 ≤
        paramsCap.top_k_per_item) := by
  refine ⟨by with_unfolding_all decide, rfl, by with_unfolding_all decide⟩

theorem sortLe_singleton (le : α → α → Bool) (x : α) : sortLe le [x] = [x] := rfl

theorem countP_map_take_sortLe_zero (p : SimRow → Bool) (toRow : ScoredPair → SimRow)
    (cmp : ScoredPair → ScoredPair → Bool) (k : ℕ) (l : List ScoredPair)
    (h : ∀ sp ∈ l, ¬(p (toRow sp) = true)) :
    (((sortLe cmp l).take k).map toRow).countP p = 0 := by
  rw [List.countP_eq_zero]
  intro r hr
  obtain ⟨sp, hsp, hre⟩ := List.mem_map.mp hr
  have hmem : sp ∈ l := (mem_sortLe cmp sp l).mp (List.take_subset _ _ hsp)
  rw [← hre]
  exact h sp hmem

/-- The C2 violation is independent of the engine's (tied) ranking order:
for every comparator, item 2 keeps exactly two outgoing rows. -/
theorem top_k_cap_violation_all_orders (cmp : ScoredPair → ScoredPair → Bool) :
    outgoingRows (compute_item_similarity_rows eventsCap paramsCap cmp) 2 = 2 := by
  have hsps : scoredPairs eventsCap paramsCap = [spCap12, spCap13, spCap23] := by
    with_unfolding_all rfl
  have hk : paramsCap.top_k_per_item = 1 := rfl
  unfold outgoingRows compute_item_similarity_rows
  rw [hsps, hk]
  unfold rankedBranch
  have hd1 : (([spCap12, spCap13, spCap23].map (fun sp => sp.item_a)).dedup) = [1, 2] := by
    decide
  have hd2 : (([spCap12, spCap13, spCap23].map (fun sp => sp.item_b)).dedup) = [2, 3] := by
    decide
  rw [hd1, hd2]
  simp only [List.flatMap_cons, List.flatMap_nil, List.append_nil]
  have hf1 : [spCap12, spCap13, spCap23].filter (fun sp => sp.item_a == 1) =
      [spCap12, spCap13] := by decide
  have hf2 : [spCap12, spCap13, spCap23].filter (fun sp => sp.item_a == 2) =
      [spCap23] := by decide
  have hg2 : [spCap12, spCap13, spCap23].filter (fun sp => sp.item_b == 2) =
      [spCap12] := by decide
  have hg3 : [spCap12, spCap13, spCap23].filter (fun sp => sp.item_b == 3) =
      [spCap13, spCap23] := by decide
  rw [hf1, hf2, hg2, hg3]
  rw [List.countP_append, List.countP_append, List.countP_append]
  have hA : ((((([spCap12, spCap13] : List ScoredPair).foldr (insertLe cmp) []).take 1)).map
      toRowFwd).countP (fun r => r.item_id == 2) = 0 :=
    countP_map_take_sortLe_zero _ toRowFwd cmp 1 [spCap12, spCap13] (by decide)
  have hD : ((((([spCap13, spCap23] : List ScoredPair).foldr (insertLe cmp) []).take 1)).map
      toRowRev).countP (fun r => r.item_id == 2) = 0 :=
    countP_map_take_sortLe_zero _ toRowRev cmp 1 [spCap13, spCap23] (by decide)
  have hB : ((((([spCap23] : List ScoredPair).foldr (insertLe cmp) []).take 1)).map
      toRowFwd).countP (fun r => r.item_id == 2) = 1 := rfl
  have hC : ((((([spCap12] : List ScoredPair).foldr (insertLe cmp) []).take 1)).map
      toRowRev).countP (fun r => r.item_id == 2) = 1 := rfl
  rw [hA, hB, hC, hD]

end Nova
